import Mathlib

/-!
Verification of the event-deduplication matching engine against its
specification.  The Python source is shallowly embedded: Python floats are
modelled as rationals (every literal appearing in the code is an exact
decimal), dict-shaped records become structures whose optional keys are
`Option` fields (`none` models an absent key), and code that can raise is
modelled in `Except String`.
-/

namespace EventDedup

/-! ## Score combiner (src/event_dedup/matching/combiner.py and config.py)

`ScoringWeights` and `ThresholdConfig` carry exactly the fields declared in
`matching/config.py` with the declared defaults.  Note that `ThresholdConfig`
declares no title-veto field.
-/

structure ScoringWeights where
  date : ℚ := 0.30
  geo : ℚ := 0.25
  title : ℚ := 0.30
  description : ℚ := 0.15
deriving DecidableEq

structure ThresholdConfig where
  high : ℚ := 0.75
  low : ℚ := 0.35
deriving DecidableEq

structure SignalScores where
  date : ℚ
  geo : ℚ
  title : ℚ
  description : ℚ
deriving DecidableEq

/-- `combined_score` from `matching/combiner.py`: weighted average of the four
signal scores, normalised by the total weight, with an explicit guard
returning `0.0` when the total weight is zero. -/
def combined_score (scores : SignalScores) (weights : ScoringWeights) : ℚ :=
  let total_weight := weights.date + weights.geo + weights.title + weights.description
  if total_weight = 0 then 0
  else
    (weights.date * scores.date
      + weights.geo * scores.geo
      + weights.title * scores.title
      + weights.description * scores.description) / total_weight

/-- `decide` from `matching/combiner.py`: threshold decision on the combined
score.  The source takes only the score and the thresholds; no title score is
consulted anywhere. -/
def decide (score : ℚ) (thresholds : ThresholdConfig) : String :=
  if score ≥ thresholds.high then "match"
  else if score ≤ thresholds.low then "no_match"
  else "ambiguous"

/-! ## AI resolver decision gating (src/event_dedup/ai_matching/resolver.py)

`MatchDecisionRecord` is the decision record of `matching/pipeline.py` that
the resolver consumes and produces.  `resolve_one` in the source performs
cache lookup, an external classifier call and logging around one decision;
everything that can influence the returned record is the original decision,
the confidence threshold and the outcome of the external interaction, which
is modelled explicitly by `CallOutcome` (a cache hit with a stored result, a
successful call with a fresh result, or a raised exception caught by the
`except` block). -/

structure MatchDecisionRecord where
  event_id_a : String
  event_id_b : String
  signals : SignalScores
  combined_score_value : ℚ
  decision : String
  tier : String
deriving DecidableEq

structure AIMatchResult where
  decision : String
  confidence : ℚ
  reasoning : String := ""
deriving DecidableEq

/-- `_apply_ai_result` from `ai_matching/resolver.py`: confidence below the
threshold keeps the pair ambiguous with tier `ai_low_confidence`; otherwise
`same` maps to `match` and `different` to `no_match` with tier `ai`; any other
decision value keeps the pair ambiguous with tier `ai_unexpected`.  All other
fields are copied unchanged into the new record. -/
def _apply_ai_result (decision : MatchDecisionRecord) (ai_result : AIMatchResult)
    (confidence_threshold : ℚ) : MatchDecisionRecord :=
  if ai_result.confidence < confidence_threshold then
    { decision with decision := "ambiguous", tier := "ai_low_confidence" }
  else if ai_result.decision = "same" then
    { decision with decision := "match", tier := "ai" }
  else if ai_result.decision = "different" then
    { decision with decision := "no_match", tier := "ai" }
  else
    { decision with decision := "ambiguous", tier := "ai_unexpected" }

/-- Outcome of the external interaction performed by `resolve_one`: the cache
returned a stored result, the classifier call returned a fresh result, or the
call raised and the `except` block caught it. -/
inductive CallOutcome where
  | cacheHit (result : AIMatchResult)
  | success (result : AIMatchResult)
  | failure (error : String)
deriving DecidableEq

/-- `resolve_one` from `ai_matching/resolver.py`, with the cache/classifier
interaction abstracted to its outcome: a cache hit or a successful call is
passed to `_apply_ai_result`; a failed call returns the original decision
unchanged (`return decision  # Keep as ambiguous on failure`).  Cache writes
and usage logging do not touch the returned record. -/
def resolve_one (decision : MatchDecisionRecord) (confidence_threshold : ℚ)
    (outcome : CallOutcome) : MatchDecisionRecord :=
  match outcome with
  | .cacheHit result => _apply_ai_result decision result confidence_threshold
  | .success result => _apply_ai_result decision result confidence_threshold
  | .failure _ => decision

/-! ## Python string ordering and sorting

Python compares strings lexicographically by code point; `sorted` is an
ascending stable sort under that order.  Both are modelled directly (Lean's
built-in `String` order is avoided so every comparison is the Python one and
reduces in the kernel). -/

def charListLt : List Char → List Char → Bool
  | [], [] => false
  | [], _ :: _ => true
  | _ :: _, [] => false
  | a :: as, b :: bs =>
    if a.toNat < b.toNat then true
    else if b.toNat < a.toNat then false
    else charListLt as bs

/-- Python `a < b` on strings: lexicographic comparison by code point. -/
def pyStrLt (a b : String) : Bool := charListLt a.data b.data

/-- Python `a <= b` on strings. -/
def pyStrLe (a b : String) : Bool := !(pyStrLt b a)

def insertSorted (x : String) : List String → List String
  | [] => [x]
  | y :: ys => if pyStrLe x y then x :: y :: ys else y :: insertSorted x ys

/-- Python `sorted` on a list of strings (insertion sort: stable, ascending
under `pyStrLt`). -/
def sortStrings (l : List String) : List String := l.foldr insertSorted []

/-! ## AI match cache content hash (src/event_dedup/ai_matching/cache.py)

`compute_pair_hash` SHA-256-hashes the canonical JSON serialisation (sorted
keys) of the two extracted field records in id-canonical order.  Both
`json.dumps` on this fixed shape and SHA-256 are injective (the latter up to
hash collisions), so the hash is modelled by the serialised content itself:
the ordered pair of extracted field records. -/

structure DateEntry where
  date : Option String := none
  start_date : Option String := none
  end_date : Option String := none
  start_time : Option String := none
  end_time : Option String := none
deriving DecidableEq

structure CacheEvent where
  id : String
  title : Option String := none
  description : Option String := none
  short_description : Option String := none
  location_city : Option String := none
  location_name : Option String := none
  dates : Option (List DateEntry) := none
  categories : Option (List String) := none
deriving DecidableEq

structure ExtractedFields where
  title : String
  description : String
  short_description : String
  location_city : String
  location_name : String
  dates : List String
  categories : List String
deriving DecidableEq

/-- `extract_fields` inside `compute_pair_hash`: the matching-relevant fields
of one event, with `""` defaults, date strings sorted and categories
sorted. -/
def extract_fields (e : CacheEvent) : ExtractedFields :=
  { title := e.title.getD ""
    description := e.description.getD ""
    short_description := e.short_description.getD ""
    location_city := e.location_city.getD ""
    location_name := e.location_name.getD ""
    dates := sortStrings ((e.dates.getD []).map (fun d => d.date.getD ""))
    categories := sortStrings (e.categories.getD []) }

/-- `compute_pair_hash` from `ai_matching/cache.py`: swap the two events when
`event_a["id"] > event_b["id"]`, then serialise the two extracted field
records in that order (the hash is modelled by the serialised content, see
the section comment). -/
def compute_pair_hash (event_a event_b : CacheEvent) :
    ExtractedFields × ExtractedFields :=
  if pyStrLt event_b.id event_a.id then
    (extract_fields event_b, extract_fields event_a)
  else
    (extract_fields event_a, extract_fields event_b)

/-! ## Date scorer (src/event_dedup/matching/scorers/date_scorer.py)

`DateConfig` carries exactly the four fields `matching/config.py` declares.
The scorer additionally reads `config.time_gap_penalty_hours` and
`config.time_gap_penalty_factor`, which do not exist on `DateConfig`; on a
pydantic model that access raises `AttributeError`, modelled here as
`Except.error`.  Helpers model the Python standard library pieces the scorer
uses: `date.fromisoformat` on `YYYY-MM-DD` strings, `timedelta` day stepping,
`date.isoformat`, and `datetime.strptime` with format `%H:%M`. -/

structure DateConfig where
  time_tolerance_minutes : ℤ := 30
  time_close_minutes : ℤ := 90
  close_factor : ℚ := 0.7
  far_factor : ℚ := 0.3
deriving DecidableEq

def isDigit (c : Char) : Bool := 48 ≤ c.toNat ∧ c.toNat ≤ 57

def digitsVal : List Char → Option Nat
  | [] => none
  | cs => if cs.all isDigit then some (cs.foldl (fun acc c => 10 * acc + (c.toNat - 48)) 0)
    else none

def isLeapYear (y : Nat) : Bool := y % 4 = 0 ∧ (y % 100 ≠ 0 ∨ y % 400 = 0)

def daysInMonth (y m : Nat) : Nat :=
  if m = 2 then (if isLeapYear y then 29 else 28)
  else if m = 4 ∨ m = 6 ∨ m = 9 ∨ m = 11 then 30
  else 31

/-- `date.fromisoformat` on the canonical `YYYY-MM-DD` shape: the parsed
`(year, month, day)` or `none` for any string the call would reject. -/
def parseISODate (s : String) : Option (Nat × Nat × Nat) :=
  match s.data with
  | [y1, y2, y3, y4, s1, m1, m2, s2, d1, d2] =>
    if s1 = '-' ∧ s2 = '-' then
      match digitsVal [y1, y2, y3, y4], digitsVal [m1, m2], digitsVal [d1, d2] with
      | some y, some m, some d =>
        if 1 ≤ y ∧ y ≤ 9999 ∧ 1 ≤ m ∧ m ≤ 12 ∧ 1 ≤ d ∧ d ≤ daysInMonth y m then
          some (y, m, d)
        else none
      | _, _, _ => none
    else none
  | _ => none

def daysBeforeYear (y : Nat) : Nat :=
  365 * (y - 1) + (y - 1) / 4 - (y - 1) / 100 + (y - 1) / 400

def daysBeforeMonth (y m : Nat) : Nat :=
  (List.range (m - 1)).foldl (fun acc i => acc + daysInMonth y (i + 1)) 0

/-- Proleptic Gregorian ordinal of a date, as `date.toordinal`. -/
def toOrdinal (dt : Nat × Nat × Nat) : Nat :=
  daysBeforeYear dt.1 + daysBeforeMonth dt.1 dt.2.1 + dt.2.2

/-- One `timedelta(days=1)` step. -/
def nextDay (dt : Nat × Nat × Nat) : Nat × Nat × Nat :=
  let (y, m, d) := dt
  if d < daysInMonth y m then (y, m, d + 1)
  else if m < 12 then (y, m + 1, 1)
  else (y + 1, 1, 1)

def addDays (dt : Nat × Nat × Nat) : Nat → Nat × Nat × Nat
  | 0 => dt
  | n + 1 => nextDay (addDays dt n)

def digitChar (n : Nat) : Char := Char.ofNat (48 + n % 10)

def pad2 (n : Nat) : String := String.mk [digitChar (n / 10), digitChar n]

def pad4 (n : Nat) : String :=
  String.mk [digitChar (n / 1000), digitChar (n / 100), digitChar (n / 10), digitChar n]

/-- `date.isoformat`. -/
def isoFormat (dt : Nat × Nat × Nat) : String :=
  pad4 dt.1 ++ "-" ++ pad2 dt.2.1 ++ "-" ++ pad2 dt.2.2

/-- A member of an event's `dates` list: a dict-shaped entry or a bare
string. -/
inductive PyDateItem where
  | dct (entry : DateEntry)
  | str (s : String)
deriving DecidableEq

structure ScorerEvent where
  dates : Option (List PyDateItem) := none
  event_dates : Option (List PyDateItem) := none
deriving DecidableEq

/-- `_expand_date_range` from `date_scorer.py`: a `start_date`/`end_date`
entry expands to every contained day (empty on a parse failure, or when the
range is reversed); otherwise a `date` entry yields its raw string. -/
def _expand_date_range (entry : DateEntry) : List String :=
  match entry.start_date, entry.end_date with
  | some s, some e =>
    match parseISODate s, parseISODate e with
    | some ds, some de =>
      if toOrdinal de < toOrdinal ds then []
      else (List.range (toOrdinal de - toOrdinal ds + 1)).map
        (fun i => isoFormat (addDays ds i))
    | _, _ => []
  | _, _ =>
    match entry.date with
    | some d => [d]
    | none => []

/-- `event.get("dates") or event.get("event_dates") or []`. -/
def rawDateItems (e : ScorerEvent) : List PyDateItem :=
  let la := e.dates.getD []
  if la ≠ [] then la else (e.event_dates.getD [])

/-- Python set insertion, on the deduplicated-list model of a set. -/
def setAdd (s : List String) (x : String) : List String :=
  if x ∈ s then s else s ++ [x]

/-- `_extract_dates`: the set of date strings of an event (a Python set,
modelled as a deduplicated list). -/
def _extract_dates (e : ScorerEvent) : List String :=
  (rawDateItems e).foldl
    (fun s item =>
      match item with
      | .dct entry => (_expand_date_range entry).foldl setAdd s
      | .str t => setAdd s t)
    []

/-- `_extract_times`: date string to `start_time`, first entry wins. -/
def _extract_times (e : ScorerEvent) : List (String × Option String) :=
  (rawDateItems e).foldl
    (fun times item =>
      match item with
      | .str _ => times
      | .dct entry =>
        (_expand_date_range entry).foldl
          (fun ts d =>
            if (ts.find? (fun p => p.1 = d)).isSome then ts
            else ts ++ [(d, entry.start_time)])
          times)
    []

/-- `times.get(d)` flattened: `none` both when the date is absent and when the
stored start time is `None` (the scorer treats the two identically). -/
def timesGet (ts : List (String × Option String)) (d : String) : Option String :=
  ((ts.find? (fun p => p.1 = d)).map (fun p => p.2)).getD none

/-- `datetime.strptime(s, "%H:%M")`, reduced to the minutes past midnight it
denotes, or `none` where the call raises `ValueError`. -/
def parseHM (s : String) : Option Nat :=
  match s.data.splitOn ':' with
  | [h, m] =>
    if h.length = 0 ∨ 2 < h.length ∨ m.length = 0 ∨ 2 < m.length then none
    else
      match digitsVal h, digitsVal m with
      | some hv, some mv =>
        if hv ≤ 23 ∧ mv ≤ 59 then some (60 * hv + mv) else none
      | _, _ => none
  | _ => none

/-- `_time_proximity_factor` from `date_scorer.py`.  Once the difference
exceeds `time_close_minutes`, the source reads
`config.time_gap_penalty_hours`, a field `DateConfig` does not declare: the
`AttributeError` that raises is the `Except.error` case. -/
def _time_proximity_factor (time_a time_b : Option String) (config : DateConfig) :
    Except String ℚ :=
  if time_a.getD "" = "" ∨ time_b.getD "" = "" then .ok 1
  else
    match parseHM (time_a.getD ""), parseHM (time_b.getD "") with
    | some ta, some tb =>
      -- the parsed times are whole minutes, so `abs(total_seconds()) / 60`
      -- is their integer distance
      let diff_minutes : ℤ := (((ta : ℤ) - (tb : ℤ)).natAbs : ℤ)
      if diff_minutes ≤ config.time_tolerance_minutes then .ok 1
      else if diff_minutes ≤ config.time_close_minutes then .ok config.close_factor
      else .error "AttributeError: DateConfig has no attribute time_gap_penalty_hours"
    | _, _ => .ok 1

/-- `date_score` from `date_scorer.py`: Jaccard coefficient of the two date
sets, scaled by the mean time-proximity factor over the shared dates. -/
def date_score (event_a event_b : ScorerEvent) (config : DateConfig) :
    Except String ℚ :=
  let dates_a := _extract_dates event_a
  let dates_b := _extract_dates event_b
  if dates_a = [] ∨ dates_b = [] then .ok 0
  else
    let overlap := dates_a.filter (fun d => d ∈ dates_b)
    let union := dates_a ++ dates_b.filter (fun d => d ∉ dates_a)
    if union = [] then .ok 0
    else
      let jaccard : ℚ := (overlap.length : ℚ) / (union.length : ℚ)
      if overlap = [] then .ok 0
      else
        let times_a := _extract_times event_a
        let times_b := _extract_times event_b
        match overlap.mapM
          (fun d => _time_proximity_factor (timesGet times_a d) (timesGet times_b d)
            config) with
        | .error e => .error e
        | .ok time_factors =>
          let avg : ℚ :=
            if time_factors.length ≠ 0 then
              time_factors.sum / (time_factors.length : ℚ)
            else 1
          .ok (jaccard * avg)

/-! ## Graph clustering (src/event_dedup/clustering/graph_cluster.py and
coherence.py)

The `networkx` graph is modelled by its node list and one weighted edge per
unordered node pair (`add_edge` overwrites the weight of an existing edge,
dedups nodes, and inserts missing endpoints); `connected_components` by a
union of singletons folded over the edge list.  `events_by_id` is an
association list; the empty list plays the role of both `None` and `{}`
(both falsy in the `if events_by_id:` guard). -/

structure ClusterConfig where
  max_cluster_size : ℕ := 15
  min_internal_similarity : ℚ := 0.40
deriving DecidableEq

structure CohEvent where
  dates : List DateEntry := []
deriving DecidableEq

def ebGet (events_by_id : List (String × CohEvent)) (eid : String) : CohEvent :=
  ((events_by_id.find? (fun p => p.1 = eid)).map (fun p => p.2)).getD {}

structure Graph where
  nodes : List String := []
  edges : List (String × String × ℚ) := []

def addNode (ns : List String) (x : String) : List String :=
  if x ∈ ns then ns else ns ++ [x]

def unorderedEq (a b : String × String) : Bool :=
  (a.1 == b.1 && a.2 == b.2) || (a.1 == b.2 && a.2 == b.1)

def addEdge (g : Graph) (a b : String) (w : ℚ) : Graph :=
  let ns := addNode (addNode g.nodes a) b
  if g.edges.any (fun e => unorderedEq (e.1, e.2.1) (a, b)) then
    { nodes := ns,
      edges := g.edges.map (fun e =>
        if unorderedEq (e.1, e.2.1) (a, b) then (e.1, e.2.1, w) else e) }
  else
    { nodes := ns, edges := g.edges ++ [(a, b, w)] }

/-- The graph `cluster_matches` builds: one node per known event id and one
weighted edge per `"match"` decision. -/
def buildGraph (decisions : List MatchDecisionRecord) (all_event_ids : List String) :
    Graph :=
  decisions.foldl
    (fun g d =>
      if d.decision = "match" then addEdge g d.event_id_a d.event_id_b d.combined_score_value
      else g)
    { nodes := all_event_ids.foldl addNode [], edges := [] }

def mergeEdge (comps : List (List String)) (a b : String) : List (List String) :=
  let ca := (comps.find? (fun c => a ∈ c)).getD [a]
  if b ∈ ca then comps
  else
    let cb := (comps.find? (fun c => b ∈ c)).getD [b]
    (comps.filter (fun c => a ∉ c ∧ b ∉ c)) ++ [ca ++ cb]

/-- `networkx.connected_components`: singleton classes merged along the edge
list. -/
def componentsOf (g : Graph) : List (List String) :=
  g.edges.foldl (fun comps e => mergeEdge comps e.1 e.2.1) (g.nodes.map (fun n => [n]))

/-- The weights of the edges of `graph.subgraph(cluster)`. -/
def internalWeights (g : Graph) (cluster : List String) : List ℚ :=
  (g.edges.filter (fun e => e.1 ∈ cluster ∧ e.2.1 ∈ cluster)).map (fun e => e.2.2)

/-- The number of distinct non-null `"date"` strings over a cluster's
events. -/
def dateSpread (cluster : List String) (events_by_id : List (String × CohEvent)) : ℕ :=
  (cluster.foldl
    (fun s eid =>
      (ebGet events_by_id eid).dates.foldl
        (fun s2 d => match d.date with | some ds => setAdd s2 ds | none => s2) s)
    []).length

/-- `is_cluster_coherent` from `clustering/coherence.py`: size check, then
mean internal edge weight, then (when event data is supplied) a date spread
of at most 3 distinct dates. -/
def is_cluster_coherent (cluster : List String) (graph : Graph) (config : ClusterConfig)
    (events_by_id : List (String × CohEvent)) : Bool :=
  if config.max_cluster_size < cluster.length then false
  else if internalWeights graph cluster ≠ [] ∧
      (internalWeights graph cluster).sum / ((internalWeights graph cluster).length : ℚ) <
        config.min_internal_similarity then false
  else if events_by_id ≠ [] ∧ 3 < dateSpread cluster events_by_id then false
  else true

structure ClusterResult where
  clusters : List (List String) := []
  flagged_clusters : List (List String) := []
  singleton_count : ℕ := 0
  total_cluster_count : ℕ := 0

/-- The component loop of `cluster_matches`: singletons are always valid,
multi-record components are split on `is_cluster_coherent`. -/
def splitComponents (graph : Graph) (config : ClusterConfig)
    (events_by_id : List (String × CohEvent)) :
    List (List String) → List (List String) × List (List String) × ℕ
  | [] => ([], [], 0)
  | c :: rest =>
    let r := splitComponents graph config events_by_id rest
    if c.length = 1 then (c :: r.1, r.2.1, r.2.2 + 1)
    else if is_cluster_coherent c graph config events_by_id then (c :: r.1, r.2.1, r.2.2)
    else (r.1, c :: r.2.1, r.2.2)

/-- `cluster_matches` from `clustering/graph_cluster.py`. -/
def cluster_matches (decisions : List MatchDecisionRecord) (all_event_ids : List String)
    (config : ClusterConfig) (events_by_id : List (String × CohEvent)) : ClusterResult :=
  let g := buildGraph decisions all_event_ids
  let components := componentsOf g
  let r := splitComponents g config events_by_id components
  { clusters := r.1, flagged_clusters := r.2.1, singleton_count := r.2.2,
    total_cluster_count := components.length }

/-! ## Candidate pair generation (src/event_dedup/matching/candidate_pairs.py)

The blocking index (`dict[str, list[dict]]`) is an association list built in
insertion order; the `seen` set of pairs is a deduplicated list; `sorted` on
pairs is an insertion sort under the lexicographic Python tuple order. -/

structure PairEvent where
  id : String
  source_code : String
  blocking_keys : Option (List String) := none
deriving DecidableEq

def indexAdd (idx : List (String × List PairEvent)) (key : String) (e : PairEvent) :
    List (String × List PairEvent) :=
  if idx.any (fun p => p.1 == key) then
    idx.map (fun p => if p.1 == key then (p.1, p.2 ++ [e]) else p)
  else idx ++ [(key, [e])]

/-- The blocking index of `generate_candidate_pairs`: key to the events
sharing it, in insertion order. -/
def buildBlockingIndex (events : List PairEvent) : List (String × List PairEvent) :=
  events.foldl
    (fun idx e => (e.blocking_keys.getD []).foldl (fun idx2 k => indexAdd idx2 k e) idx)
    []

/-- All index pairs `(block[i], block[j])` with `i < j`. -/
def orderedPairs : List PairEvent → List (PairEvent × PairEvent)
  | [] => []
  | x :: xs => xs.map (fun y => (x, y)) ++ orderedPairs xs

/-- Python `tuple(sorted([a, b]))`. -/
def sortPair (a b : String) : String × String :=
  if pyStrLt b a then (b, a) else (a, b)

def pairAdd (s : List (String × String)) (p : String × String) :
    List (String × String) :=
  if p ∈ s then s else s ++ [p]

/-- The `seen` set after both loops of `generate_candidate_pairs`: every
cross-source in-block pair, canonically ordered, deduplicated. -/
def collectPairs (events : List PairEvent) : List (String × String) :=
  (buildBlockingIndex events).foldl
    (fun seen kb =>
      (orderedPairs kb.2).foldl
        (fun seen2 pq =>
          if pq.1.source_code = pq.2.source_code then seen2
          else pairAdd seen2 (sortPair pq.1.id pq.2.id))
        seen)
    []

def pairLt (p q : String × String) : Bool :=
  pyStrLt p.1 q.1 || (p.1 == q.1 && pyStrLt p.2 q.2)

def insertSortedPair (x : String × String) :
    List (String × String) → List (String × String)
  | [] => [x]
  | y :: ys => if !(pairLt y x) then x :: y :: ys else y :: insertSortedPair x ys

/-- Python `sorted` on the set of pairs. -/
def sortPairs (l : List (String × String)) : List (String × String) :=
  l.foldr insertSortedPair []

structure CandidatePairStats where
  total_events : ℕ
  total_possible_pairs : ℕ
  blocked_pairs : ℕ
  reduction_pct : ℚ
deriving DecidableEq

/-- The per-source bucket sizes of `_count_cross_source_pairs` (`Counter`
values in first-occurrence order). -/
def sourceSizes (events : List PairEvent) : List ℕ :=
  ((events.map (fun e => e.source_code)).foldl setAdd []).map
    (fun s => (events.filter (fun e => e.source_code = s)).length)

def crossProductSum : List ℕ → ℕ
  | [] => 0
  | x :: xs => x * xs.sum + crossProductSum xs

/-- `_count_cross_source_pairs` from `candidate_pairs.py`. -/
def _count_cross_source_pairs (events : List PairEvent) : ℕ :=
  crossProductSum (sourceSizes events)

/-- `generate_candidate_pairs` from `candidate_pairs.py`. -/
def generate_candidate_pairs (events : List PairEvent) :
    List (String × String) × CandidatePairStats :=
  let pairs := sortPairs (collectPairs events)
  let total_possible := _count_cross_source_pairs events
  let blocked := pairs.length
  let reduction : ℚ :=
    if 0 < total_possible then (1 - (blocked : ℚ) / (total_possible : ℚ)) * 100 else 0
  (pairs,
    { total_events := events.length, total_possible_pairs := total_possible,
      blocked_pairs := blocked, reduction_pct := reduction })

/-- A pair the generator may legitimately emit: the canonically ordered ids
of two input events from different sources sharing a blocking key. -/
def emittedFrom (events : List PairEvent) (p : String × String) : Prop :=
  ∃ ea, ea ∈ events ∧ ∃ eb, eb ∈ events ∧
    ea.source_code ≠ eb.source_code ∧
    (∃ k, k ∈ ea.blocking_keys.getD [] ∧ k ∈ eb.blocking_keys.getD []) ∧
    p = sortPair ea.id eb.id

def indexOk (events : List PairEvent) (idx : List (String × List PairEvent)) : Prop :=
  ∀ kb, kb ∈ idx → ∀ e, e ∈ kb.2 → e ∈ events ∧ kb.1 ∈ e.blocking_keys.getD []

/-! ## Canonical synthesis (src/event_dedup/canonical/synthesizer.py) and
enrichment (src/event_dedup/canonical/enrichment.py)

Source records are dicts read with `.get`; each optional key is an `Option`
field.  Python truthiness of an optional string (`if val:`) is `pyStr?`.
The `config` parameter of both functions is accepted by the source but never
read (the default strategies are applied unconditionally), so it is omitted.
Provenance dicts are association lists with distinct keys. -/

structure SourceRecord where
  id : Option String := none
  title : Option String := none
  short_description : Option String := none
  description : Option String := none
  highlights : Option (List String) := none
  location_name : Option String := none
  location_district : Option String := none
  location_street : Option String := none
  location_zipcode : Option String := none
  location_city : Option String := none
  geo_latitude : Option ℚ := none
  geo_longitude : Option ℚ := none
  geo_confidence : Option ℚ := none
  dates : Option (List DateEntry) := none
  categories : Option (List String) := none
  is_family_event : Option Bool := none
  is_child_focused : Option Bool := none
  admission_free : Option Bool := none
deriving DecidableEq

structure CanonicalEvent where
  title : String
  short_description : Option String
  description : Option String
  highlights : List String
  location_name : Option String
  location_district : Option String
  location_street : Option String
  location_zipcode : Option String
  location_city : Option String
  geo_latitude : Option ℚ
  geo_longitude : Option ℚ
  geo_confidence : Option ℚ
  dates : List DateEntry
  categories : List String
  is_family_event : Bool
  is_child_focused : Bool
  admission_free : Bool
  field_provenance : List (String × String)
  source_count : ℕ
  version : Option ℤ := none
deriving DecidableEq

/-- Python truthiness of an optional string: `none` for an absent value and
for `""`. -/
def pyStr? (v : Option String) : Option String :=
  match v with
  | some s => if s = "" then none else some s
  | none => none

/-- `events[0].get("id", "unknown")` (callers guarantee a non-empty list). -/
def firstId (events : List SourceRecord) : String :=
  (events.head?.map (fun e => e.id.getD "unknown")).getD "unknown"

/-- `_select_longest` from `synthesizer.py`: longest truthy value and the id
of the record that contributed it (the first record's id when none is
truthy). -/
def _select_longest (events : List SourceRecord)
    (getF : SourceRecord → Option String) : Option String × String :=
  let r := events.foldl
    (fun acc e =>
      match pyStr? (getF e) with
      | some s => if acc.2.1 < (s.length : ℤ) then (some s, (s.length : ℤ), e.id.getD "unknown")
        else acc
      | none => acc)
    ((none, -1, firstId events) : Option String × ℤ × String)
  (r.1, r.2.2)

/-- The truthy `(value, source id)` candidates of a field, in record
order. -/
def candidatesOf (events : List SourceRecord)
    (getF : SourceRecord → Option String) : List (String × String) :=
  events.filterMap (fun e => (pyStr? (getF e)).map (fun s => (s, e.id.getD "unknown")))

/-- `_select_longest_non_generic` from `synthesizer.py`: longest candidate of
at least `min_length` characters, falling back to the longest overall, and
`("", first id)` when there is no candidate at all (Python `max` keeps the
first maximum). -/
def _select_longest_non_generic (events : List SourceRecord)
    (getF : SourceRecord → Option String) (min_length : ℕ) : String × String :=
  let all_candidates := candidatesOf events getF
  let long_candidates := all_candidates.filter (fun c => min_length ≤ c.1.length)
  let pool := if long_candidates ≠ [] then long_candidates else all_candidates
  match pool with
  | [] => ("", firstId events)
  | c :: cs => cs.foldl (fun best x => if best.1.length < x.1.length then x else best) c

/-- Python `list.append` under a `seen` set: order-preserving
deduplication. -/
def _select_union_lists (events : List SourceRecord)
    (getF : SourceRecord → Option (List String)) : List String × String :=
  (events.foldl
    (fun res e =>
      match getF e with
      | some items => items.foldl setAdd res
      | none => res)
    [], "union_all_sources")

/-- `_select_most_complete` is `_select_longest` (the source delegates). -/
def _select_most_complete (events : List SourceRecord)
    (getF : SourceRecord → Option String) : Option String × String :=
  _select_longest events getF

/-- `_select_most_frequent` from `synthesizer.py`: the most frequent truthy
value (`Counter.most_common` with ties broken by first insertion) and the id
of the first record that contributed it. -/
def _select_most_frequent (events : List SourceRecord)
    (getF : SourceRecord → Option String) : Option String × String :=
  let vals := candidatesOf events getF
  match (vals.map (fun v => v.1)).foldl setAdd [] with
  | [] => (none, firstId events)
  | v :: vs =>
    let counted := (v :: vs).map (fun x => (x, (vals.filter (fun p => p.1 = x)).length))
    let best := counted.tail.foldl (fun b x => if b.2 < x.2 then x else b)
      (counted.headD (v, 0))
    (some best.1, ((vals.find? (fun p => p.1 = best.1)).map (fun p => p.2)).getD "unknown")

/-- `_select_best_geo` from `synthesizer.py`: coordinates of the record with
the highest confidence among records carrying all three geo fields. -/
def _select_best_geo (events : List SourceRecord) :
    (Option ℚ × Option ℚ × Option ℚ) × String :=
  let r := events.foldl
    (fun acc e =>
      match e.geo_latitude, e.geo_longitude, e.geo_confidence with
      | some lat, some lon, some conf =>
        if acc.1 < conf then (conf, (some lat, some lon, some conf), e.id.getD "unknown")
        else acc
      | _, _, _ => acc)
    ((-1, (none, none, none), firstId events) : ℚ × (Option ℚ × Option ℚ × Option ℚ) × String)
  (r.2.1, r.2.2)

/-- The deduplication key of `_union_dates`. -/
def dateKey (d : DateEntry) :
    Option String × Option String × Option String × Option String :=
  (d.date, d.start_time, d.end_time, d.end_date)

/-- `_union_dates` from `synthesizer.py`: all date entries, deduplicated by
`(date, start_time, end_time, end_date)`, order preserved. -/
def _union_dates (events : List SourceRecord) : List DateEntry :=
  events.foldl
    (fun res e =>
      match e.dates with
      | some ds => ds.foldl
          (fun r d => if r.any (fun d0 => dateKey d0 = dateKey d) then r else r ++ [d]) res
      | none => res)
    []

/-- The `any_true` strategy of `synthesize_canonical`: true when any record's
value is truthy, with provenance at the first truthy record (else the first
record). -/
def anyTrueField (events : List SourceRecord)
    (getF : SourceRecord → Option Bool) : Bool × String :=
  (events.any (fun e => (getF e).getD false),
   ((events.find? (fun e => (getF e).getD false)).map (fun e => e.id.getD "unknown")).getD
     (firstId events))

/-- `synthesize_canonical` from `synthesizer.py` (raises `ValueError` on an
empty cluster). -/
def synthesize_canonical (source_events : List SourceRecord) :
    Except String CanonicalEvent :=
  if source_events = [] then .error "source_events must contain at least one event"
  else
    let title := _select_longest_non_generic source_events (fun e => e.title) 10
    let sd := _select_longest source_events (fun e => e.short_description)
    let desc := _select_longest source_events (fun e => e.description)
    let hl := _select_union_lists source_events (fun e => e.highlights)
    let ln := _select_most_complete source_events (fun e => e.location_name)
    let ld := _select_most_complete source_events (fun e => e.location_district)
    let ls := _select_most_complete source_events (fun e => e.location_street)
    let lz := _select_most_complete source_events (fun e => e.location_zipcode)
    let city := _select_most_frequent source_events (fun e => e.location_city)
    let geo := _select_best_geo source_events
    let cats := _select_union_lists source_events (fun e => e.categories)
    let fam := anyTrueField source_events (fun e => e.is_family_event)
    let child := anyTrueField source_events (fun e => e.is_child_focused)
    let adm := anyTrueField source_events (fun e => e.admission_free)
    .ok
      { title := title.1
        short_description := sd.1
        description := desc.1
        highlights := hl.1
        location_name := ln.1
        location_district := ld.1
        location_street := ls.1
        location_zipcode := lz.1
        location_city := city.1
        geo_latitude := geo.1.1
        geo_longitude := geo.1.2.1
        geo_confidence := geo.1.2.2
        dates := _union_dates source_events
        categories := cats.1
        is_family_event := fam.1
        is_child_focused := child.1
        admission_free := adm.1
        field_provenance :=
          [("title", title.2), ("short_description", sd.2), ("description", desc.2),
           ("highlights", hl.2),
           ("location_name", ln.2), ("location_district", ld.2),
           ("location_street", ls.2), ("location_zipcode", lz.2),
           ("location_city", city.2), ("geo", geo.2),
           ("dates", "union_all_sources"), ("categories", cats.2),
           ("is_family_event", fam.2), ("is_child_focused", child.2),
           ("admission_free", adm.2)]
        source_count := source_events.length }

structure ExistingCanonical where
  title : Option String := none
  short_description : Option String := none
  description : Option String := none
  field_provenance : List (String × String) := []
  version : Option ℤ := none
deriving DecidableEq

/-- `provenance.get(field, default)` on an association list. -/
def provGet : List (String × String) → String → String → String
  | [], _, dflt => dflt
  | q :: qs, k, dflt => if q.1 = k then q.2 else provGet qs k dflt

/-- `provenance[field] = value` on an association list with distinct keys. -/
def provSet : List (String × String) → String → String → List (String × String)
  | [], k, v => [(k, v)]
  | q :: qs, k, v => if q.1 = k then (k, v) :: qs else q :: provSet qs k v

/-- `len(d.get(field) or "")`. -/
def pyLen (v : Option String) : ℕ := (v.getD "").length

/-- The `title` iteration of the downgrade-prevention loop in
`enrich_canonical`. -/
def downgradeTitle (existing : ExistingCanonical) (nc : CanonicalEvent) :
    CanonicalEvent :=
  if nc.title.length < pyLen existing.title then
    { nc with title := existing.title.getD ""
              field_provenance := provSet nc.field_provenance "title"
                (provGet existing.field_provenance "title" "unknown") }
  else nc

/-- The `short_description` iteration of the downgrade-prevention loop. -/
def downgradeShortDescription (existing : ExistingCanonical) (nc : CanonicalEvent) :
    CanonicalEvent :=
  if pyLen nc.short_description < pyLen existing.short_description then
    { nc with short_description := existing.short_description
              field_provenance := provSet nc.field_provenance "short_description"
                (provGet existing.field_provenance "short_description" "unknown") }
  else nc

/-- The `description` iteration of the downgrade-prevention loop. -/
def downgradeDescription (existing : ExistingCanonical) (nc : CanonicalEvent) :
    CanonicalEvent :=
  if pyLen nc.description < pyLen existing.description then
    { nc with description := existing.description
              field_provenance := provSet nc.field_provenance "description"
                (provGet existing.field_provenance "description" "unknown") }
  else nc

/-- `enrich_canonical` from `enrichment.py`: re-synthesize over all sources,
apply downgrade prevention to the three text fields in order, increment the
version, and set `source_count` from the full source list. -/
def enrich_canonical (existing_canonical : ExistingCanonical)
    (all_sources : List SourceRecord) : Except String CanonicalEvent :=
  match synthesize_canonical all_sources with
  | .error e => .error e
  | .ok new_canonical =>
    let nc3 := downgradeDescription existing_canonical
      (downgradeShortDescription existing_canonical
        (downgradeTitle existing_canonical new_canonical))
    .ok { nc3 with
          version := some (existing_canonical.version.getD 1 + 1)
          source_count := all_sources.length }

/-- The truthy values of a field over the source records: the candidates the
synthesis strategies select from. -/
def candidateVals (sources : List SourceRecord)
    (getF : SourceRecord → Option String) : List String :=
  sources.filterMap (fun e => pyStr? (getF e))

def candidateTitles (sources : List SourceRecord) : List String :=
  candidateVals sources (fun e => e.title)

/-- A concrete well-formed source record for exercising single-record
synthesis. -/
def sampleRecord : SourceRecord :=
  { id := some "w1"
    title := some "Long Event Title"
    short_description := some "Short desc"
    location_name := some "Hall"
    location_city := some "Freiburg"
    geo_latitude := some 48
    geo_longitude := some 8
    geo_confidence := some 1
    dates := some [{ date := some "2026-03-01" }]
    categories := some ["music"]
    is_family_event := some true
    is_child_focused := some false
    admission_free := some false }

/-- A concrete existing canonical whose three text fields are longer than
anything the sample sources can synthesize. -/
def sampleExisting : ExistingCanonical :=
  { title := some "A much longer existing title"
    short_description := none
    description := none
    field_provenance := [("title", "old"), ("short_description", "oldsd"),
      ("description", "olddesc")]
    version := some 2 }

def sampleEnrichSources : List SourceRecord :=
  [{ id := some "s1", title := some "short" }]

/-- C10: `combined_score` returns 0 when the configured weights sum to zero,
and the weighted sum divided by the total weight whenever the total is
positive. -/
theorem combined_score_zero_and_positive_total (scores : SignalScores)
    (weights : ScoringWeights) :
    (weights.date + weights.geo + weights.title + weights.description = 0 →
      combined_score scores weights = 0) ∧
    (0 < weights.date + weights.geo + weights.title + weights.description →
      combined_score scores weights =
        (weights.date * scores.date + weights.geo * scores.geo
          + weights.title * scores.title + weights.description * scores.description)
        / (weights.date + weights.geo + weights.title + weights.description)) := by
  constructor
  · intro h
    simp [combined_score, h]
  · intro h
    have hne : weights.date + weights.geo + weights.title + weights.description ≠ 0 :=
      ne_of_gt h
    simp [combined_score, hne]

/-- C5 counterexample: with a threshold configuration whose low threshold is
not below its high threshold, a score equal to the low threshold yields
`"match"`, not `"no_match"` as the claim states. -/
theorem decide_low_boundary_fails_when_low_ge_high :
    decide 0.5 { high := 0.2, low := 0.5 } = "match" ∧
    decide 0.5 { high := 0.2, low := 0.5 } ≠ "no_match" := by
  have h : decide 0.5 { high := 0.2, low := 0.5 } = "match" := by
    norm_num [decide]
  rw [h]
  exact ⟨rfl, by decide⟩

/-- C5 amended: for every score and configuration `decide` returns exactly one
of the three decision strings, a score equal to the high threshold always
yields `"match"`, and a score equal to the low threshold yields `"no_match"`
provided the low threshold is below the high threshold. -/
theorem decide_totality_amended (score : ℚ) (thresholds : ThresholdConfig) :
    (decide score thresholds = "match" ∨ decide score thresholds = "no_match" ∨
      decide score thresholds = "ambiguous") ∧
    (score = thresholds.high → decide score thresholds = "match") ∧
    (thresholds.low < thresholds.high → score = thresholds.low →
      decide score thresholds = "no_match") := by
  refine ⟨?_, ?_, ?_⟩
  · unfold decide
    split_ifs <;> simp
  · intro h
    simp [decide, h]
  · intro hlh hs
    have h1 : ¬ score ≥ thresholds.high := by
      rw [hs]
      exact not_le.mpr hlh
    have h2 : score ≤ thresholds.low := le_of_eq hs
    simp [decide, h1, h2]

/-- C1: the source `decide` has no title-veto: a combined score of 0.80 is
classified `"match"` under the default thresholds, with no way to pass a
title score at all (`ThresholdConfig` declares no `title_veto` field). -/
theorem decide_high_score_is_match_despite_low_title :
    decide 0.80 {} = "match" := by
  norm_num [decide]

/-- C4: for every ambiguous decision the resolver processes, a result below
the confidence threshold yields `ambiguous`/`ai_low_confidence`; a result at
or above the threshold yields `match`/`ai` for `same` and `no_match`/`ai` for
`different`; a failed call leaves the decision record unchanged; and in every
case the event ids, the four signal scores and the combined score of the
output equal those of the input. -/
theorem resolve_one_confidence_gating (d : MatchDecisionRecord)
    (confidence_threshold : ℚ) (hd : d.decision = "ambiguous") :
    (∀ o, (resolve_one d confidence_threshold o).event_id_a = d.event_id_a ∧
      (resolve_one d confidence_threshold o).event_id_b = d.event_id_b ∧
      (resolve_one d confidence_threshold o).signals = d.signals ∧
      (resolve_one d confidence_threshold o).combined_score_value =
        d.combined_score_value) ∧
    (∀ e, resolve_one d confidence_threshold (.failure e) = d) ∧
    (∀ r, r.confidence < confidence_threshold →
      (resolve_one d confidence_threshold (.cacheHit r)).decision = "ambiguous" ∧
      (resolve_one d confidence_threshold (.cacheHit r)).tier = "ai_low_confidence" ∧
      (resolve_one d confidence_threshold (.success r)).decision = "ambiguous" ∧
      (resolve_one d confidence_threshold (.success r)).tier = "ai_low_confidence") ∧
    (∀ r, confidence_threshold ≤ r.confidence → r.decision = "same" →
      (resolve_one d confidence_threshold (.cacheHit r)).decision = "match" ∧
      (resolve_one d confidence_threshold (.cacheHit r)).tier = "ai" ∧
      (resolve_one d confidence_threshold (.success r)).decision = "match" ∧
      (resolve_one d confidence_threshold (.success r)).tier = "ai") ∧
    (∀ r, confidence_threshold ≤ r.confidence → r.decision = "different" →
      (resolve_one d confidence_threshold (.cacheHit r)).decision = "no_match" ∧
      (resolve_one d confidence_threshold (.cacheHit r)).tier = "ai" ∧
      (resolve_one d confidence_threshold (.success r)).decision = "no_match" ∧
      (resolve_one d confidence_threshold (.success r)).tier = "ai") := by
  refine ⟨?_, ?_, ?_, ?_, ?_⟩
  · intro o
    cases o <;> simp [resolve_one, _apply_ai_result] <;> split_ifs <;> simp
  · intro e
    rfl
  · intro r hr
    simp [resolve_one, _apply_ai_result, hr]
  · intro r hr hsame
    simp [resolve_one, _apply_ai_result, not_lt.mpr hr, hsame]
  · intro r hr hdiff
    have hne : r.decision ≠ "same" := by
      rw [hdiff]
      decide
    simp [resolve_one, _apply_ai_result, not_lt.mpr hr, hdiff, hne]

/-- C4 witness: the gating theorem applied to a concrete ambiguous decision
record and a concrete failed call. -/
theorem resolve_one_confidence_gating_witness :
    resolve_one
      { event_id_a := "a", event_id_b := "b",
        signals := { date := 0.5, geo := 0.5, title := 0.5, description := 0.5 },
        combined_score_value := 0.5, decision := "ambiguous",
        tier := "deterministic" }
      0.6 (.failure "timeout") =
      { event_id_a := "a", event_id_b := "b",
        signals := { date := 0.5, geo := 0.5, title := 0.5, description := 0.5 },
        combined_score_value := 0.5, decision := "ambiguous",
        tier := "deterministic" } :=
  (resolve_one_confidence_gating
    { event_id_a := "a", event_id_b := "b",
      signals := { date := 0.5, geo := 0.5, title := 0.5, description := 0.5 },
      combined_score_value := 0.5, decision := "ambiguous",
      tier := "deterministic" }
    0.6 rfl).2.1 "timeout"

theorem charListLt_asymm (a b : List Char) (h : charListLt a b = true) :
    charListLt b a = false := by
  induction a generalizing b with
  | nil =>
    cases b with
    | nil => simp [charListLt] at h
    | cons y ys => simp [charListLt]
  | cons x xs ih =>
    cases b with
    | nil => simp [charListLt] at h
    | cons y ys =>
      by_cases hxy : x.toNat < y.toNat
      · have hyx : ¬ y.toNat < x.toNat := by omega
        simp [charListLt, hxy, hyx]
      · by_cases hyx : y.toNat < x.toNat
        · simp [charListLt, hxy, hyx] at h
        · simp [charListLt, hxy, hyx] at h ⊢
          exact ih ys h

theorem charListLt_trichotomy (a b : List Char) :
    charListLt a b = true ∨ a = b ∨ charListLt b a = true := by
  induction a generalizing b with
  | nil =>
    cases b with
    | nil => exact Or.inr (Or.inl rfl)
    | cons y ys => exact Or.inl (by simp [charListLt])
  | cons x xs ih =>
    cases b with
    | nil => exact Or.inr (Or.inr (by simp [charListLt]))
    | cons y ys =>
      by_cases hxy : x.toNat < y.toNat
      · exact Or.inl (by simp [charListLt, hxy])
      · by_cases hyx : y.toNat < x.toNat
        · exact Or.inr (Or.inr (by simp [charListLt, hyx]))
        · have hx : x = y := by
            have : x.toNat = y.toNat := by omega
            exact Char.ext (UInt32.ext this)
          subst hx
          rcases ih ys with h | h | h
          · exact Or.inl (by simp [charListLt, h])
          · exact Or.inr (Or.inl (by rw [h]))
          · exact Or.inr (Or.inr (by simp [charListLt, h]))

theorem pyStrLt_asymm (a b : String) (h : pyStrLt a b = true) :
    pyStrLt b a = false :=
  charListLt_asymm a.data b.data h

theorem pyStrLt_trichotomy (a b : String) :
    pyStrLt a b = true ∨ a = b ∨ pyStrLt b a = true := by
  rcases charListLt_trichotomy a.data b.data with h | h | h
  · exact Or.inl h
  · cases a
    cases b
    simp only at h
    exact Or.inr (Or.inl (by rw [h]))
  · exact Or.inr (Or.inr h)

/-- C3 counterexample: two pairs whose records carry identical
matching-relevant content record-for-record, differing only in their record
ids, produce different hashes, because the canonical ordering is by id and
the ids of the second pair are assigned the other way round. -/
theorem pair_hash_depends_on_id_order :
    extract_fields { id := "a", title := some "X" } =
      extract_fields { id := "b", title := some "X" } ∧
    extract_fields { id := "b", title := some "Y" } =
      extract_fields { id := "a", title := some "Y" } ∧
    compute_pair_hash { id := "a", title := some "X" }
        { id := "b", title := some "Y" } ≠
      compute_pair_hash { id := "b", title := some "X" }
        { id := "a", title := some "Y" } := by
  refine ⟨rfl, rfl, ?_⟩
  decide

/-- C3 amended: `compute_pair_hash` is invariant under swapping its arguments
whenever the two ids differ, and its result is determined by the two records'
matching-relevant content together with the orientation of the id comparison:
two pairs with record-wise identical content and the same id orientation hash
identically even when the id values differ, and changing any matching-relevant
field of one record (keeping its id) changes the hash. -/
theorem pair_hash_content_addressing_amended (a b a' b' : CacheEvent) :
    (a.id ≠ b.id → compute_pair_hash a b = compute_pair_hash b a) ∧
    (extract_fields a = extract_fields a' → extract_fields b = extract_fields b' →
      (pyStrLt b.id a.id = pyStrLt b'.id a'.id) →
      compute_pair_hash a b = compute_pair_hash a' b') ∧
    (a'.id = a.id → extract_fields a ≠ extract_fields a' →
      compute_pair_hash a b ≠ compute_pair_hash a' b) := by
  refine ⟨?_, ?_, ?_⟩
  · intro hne
    have htri : pyStrLt a.id b.id = true ∨ pyStrLt b.id a.id = true := by
      have := pyStrLt_trichotomy a.id b.id
      rcases this with h | h | h
      · exact Or.inl h
      · exact absurd h hne
      · exact Or.inr h
    rcases htri with h | h
    · have hba : pyStrLt b.id a.id = false := pyStrLt_asymm a.id b.id h
      simp [compute_pair_hash, h, hba]
    · have hab : pyStrLt a.id b.id = false := pyStrLt_asymm b.id a.id h
      simp [compute_pair_hash, h, hab]
  · intro ha hb hor
    unfold compute_pair_hash
    rw [← hor, ha, hb]
  · intro hid hne
    unfold compute_pair_hash
    rw [hid]
    by_cases h : pyStrLt b.id a.id = true
    · simp only [h, if_true]
      intro hcontr
      exact hne (congrArg Prod.snd hcontr)
    · simp only [h, if_false, Bool.false_eq_true]
      intro hcontr
      exact hne (congrArg Prod.fst hcontr)

/-- C2: `date_score` on two well-formed events sharing one date whose start
times lie 240 minutes apart raises (`Except.error`) instead of returning a
score, because the scorer reads a configuration attribute that
`DateConfig` does not define. -/
theorem date_score_raises_on_far_times :
    date_score
      { dates := some [.dct { date := some "2026-03-01", start_time := some "10:00" }] }
      { dates := some [.dct { date := some "2026-03-01", start_time := some "14:00" }] }
      {} =
      .error "AttributeError: DateConfig has no attribute time_gap_penalty_hours" := by
  rfl

theorem dateSpread_nil (cluster : List String) : dateSpread cluster [] = 0 := by
  have h : ∀ (s : List String),
      cluster.foldl
        (fun s eid =>
          (ebGet [] eid).dates.foldl
            (fun s2 d => match d.date with | some ds => setAdd s2 ds | none => s2) s)
        s = s := by
    intro s
    induction cluster generalizing s with
    | nil => rfl
    | cons x xs ih => simpa [ebGet] using ih s
  simp [dateSpread, h]

theorem not_coherent_of_bad (cluster : List String) (graph : Graph)
    (config : ClusterConfig) (events_by_id : List (String × CohEvent))
    (h : config.max_cluster_size < cluster.length ∨
      (internalWeights graph cluster ≠ [] ∧
        (internalWeights graph cluster).sum /
          ((internalWeights graph cluster).length : ℚ) < config.min_internal_similarity) ∨
      3 < dateSpread cluster events_by_id) :
    is_cluster_coherent cluster graph config events_by_id = false := by
  unfold is_cluster_coherent
  split_ifs with h1 h2 h3
  · rfl
  · rfl
  · rfl
  · exfalso
    rcases h with hs | hm | hd
    · exact h1 hs
    · exact h2 hm
    · refine h3 ⟨?_, hd⟩
      intro hnil
      rw [hnil, dateSpread_nil] at hd
      omega

theorem splitComponents_flagged (graph : Graph) (config : ClusterConfig)
    (events_by_id : List (String × CohEvent)) (comps : List (List String))
    (c : List String) (hc : c ∈ comps) (hlen : c.length ≠ 1)
    (hbad : is_cluster_coherent c graph config events_by_id = false) :
    c ∈ (splitComponents graph config events_by_id comps).2.1 := by
  induction comps with
  | nil => cases hc
  | cons x xs ih =>
    rcases List.mem_cons.mp hc with hx | hx
    · subst hx
      simp only [splitComponents, hlen, if_false, hbad, Bool.false_eq_true]
      exact List.mem_cons_self _ _
    · have hmem := ih hx
      simp only [splitComponents]
      split_ifs <;> simp [hmem]

theorem splitComponents_clusters_sound (graph : Graph) (config : ClusterConfig)
    (events_by_id : List (String × CohEvent)) (comps : List (List String))
    (x : List String) (hx : x ∈ (splitComponents graph config events_by_id comps).1) :
    x.length = 1 ∨ is_cluster_coherent x graph config events_by_id = true := by
  induction comps with
  | nil => cases hx
  | cons y ys ih =>
    simp only [splitComponents] at hx
    split_ifs at hx with h1 h2
    · rcases List.mem_cons.mp hx with h | h
      · subst h; exact Or.inl h1
      · exact ih h
    · rcases List.mem_cons.mp hx with h | h
      · subst h; exact Or.inr h2
      · exact ih h
    · exact ih hx

/-- C6: a multi-record connected component whose size exceeds
`max_cluster_size`, or whose mean internal edge weight is below
`min_internal_similarity`, or which spans more than 3 distinct dates of the
supplied per-record date data, is placed by `cluster_matches` in the flagged
list and never in the valid clusters list. -/
theorem incoherent_component_flagged (decisions : List MatchDecisionRecord)
    (all_event_ids : List String) (config : ClusterConfig)
    (events_by_id : List (String × CohEvent)) (c : List String)
    (hc : c ∈ componentsOf (buildGraph decisions all_event_ids))
    (hmulti : 1 < c.length)
    (hbad : config.max_cluster_size < c.length ∨
      (internalWeights (buildGraph decisions all_event_ids) c ≠ [] ∧
        (internalWeights (buildGraph decisions all_event_ids) c).sum /
          ((internalWeights (buildGraph decisions all_event_ids) c).length : ℚ) <
          config.min_internal_similarity) ∨
      3 < dateSpread c events_by_id) :
    c ∈ (cluster_matches decisions all_event_ids config events_by_id).flagged_clusters ∧
    c ∉ (cluster_matches decisions all_event_ids config events_by_id).clusters := by
  have hlen : c.length ≠ 1 := by omega
  have hnc : is_cluster_coherent c (buildGraph decisions all_event_ids) config
      events_by_id = false :=
    not_coherent_of_bad c (buildGraph decisions all_event_ids) config events_by_id hbad
  constructor
  · exact splitComponents_flagged _ _ _ _ c hc hlen hnc
  · intro hmem
    rcases splitComponents_clusters_sound _ _ _ _ c hmem with h | h
    · exact hlen h
    · rw [hnc] at h
      cases h

/-- C6 witness: a two-record component joined by a single `"match"` edge of
weight 0 under a configuration demanding mean internal weight at least 1 is
flagged and not valid. -/
theorem incoherent_component_flagged_witness :
    ["a", "b"] ∈ (cluster_matches
      [{ event_id_a := "a", event_id_b := "b",
         signals := { date := 0, geo := 0, title := 0, description := 0 },
         combined_score_value := 0, decision := "match", tier := "deterministic" }]
      ["a", "b"] { max_cluster_size := 15, min_internal_similarity := 1 }
      []).flagged_clusters ∧
    ["a", "b"] ∉ (cluster_matches
      [{ event_id_a := "a", event_id_b := "b",
         signals := { date := 0, geo := 0, title := 0, description := 0 },
         combined_score_value := 0, decision := "match", tier := "deterministic" }]
      ["a", "b"] { max_cluster_size := 15, min_internal_similarity := 1 }
      []).clusters := by
  refine incoherent_component_flagged _ _ _ _ _ ?_ ?_ ?_
  · decide
  · decide
  · refine Or.inr (Or.inl ?_)
    have hw : internalWeights
        (buildGraph
          [{ event_id_a := "a", event_id_b := "b",
             signals := { date := 0, geo := 0, title := 0, description := 0 },
             combined_score_value := 0, decision := "match", tier := "deterministic" }]
          ["a", "b"]) ["a", "b"] = [0] := by rfl
    rw [hw]
    refine ⟨by simp, ?_⟩
    norm_num

theorem indexAdd_ok {events : List PairEvent} {idx : List (String × List PairEvent)}
    {key : String} {e : PairEvent} (he : e ∈ events)
    (hk : key ∈ e.blocking_keys.getD []) (h : indexOk events idx) :
    indexOk events (indexAdd idx key e) := by
  intro kb hkb e' he'
  unfold indexAdd at hkb
  split_ifs at hkb with hany
  · rcases List.mem_map.mp hkb with ⟨kb0, hkb0, heq⟩
    by_cases hbeq : kb0.1 == key
    · rw [if_pos hbeq] at heq
      have hkey : kb0.1 = key := by simpa using hbeq
      subst heq
      simp only at he'
      rcases List.mem_append.mp he' with h1 | h1
      · exact h kb0 hkb0 e' h1
      · have : e' = e := by simpa using h1
        subst this
        exact ⟨he, by rw [hkey]; exact hk⟩
    · rw [if_neg hbeq] at heq
      subst heq
      exact h kb0 hkb0 e' he'
  · rcases List.mem_append.mp hkb with h1 | h1
    · exact h kb h1 e' he'
    · have : kb = (key, [e]) := by simpa using h1
      subst this
      have : e' = e := by simpa using he'
      subst this
      exact ⟨he, hk⟩

theorem foldKeys_ok {events : List PairEvent} {e : PairEvent} (he : e ∈ events) :
    ∀ (ks : List String) (idx : List (String × List PairEvent)),
      (∀ k ∈ ks, k ∈ e.blocking_keys.getD []) → indexOk events idx →
      indexOk events (ks.foldl (fun idx2 k => indexAdd idx2 k e) idx)
  | [], idx, _, h => h
  | k :: ks, idx, hks, h => by
    simp only [List.foldl_cons]
    exact foldKeys_ok he ks _ (fun k' hk' => hks k' (List.mem_cons_of_mem _ hk'))
      (indexAdd_ok he (hks k (List.mem_cons_self _ _)) h)

theorem buildBlockingIndex_ok (events : List PairEvent) :
    indexOk events (buildBlockingIndex events) := by
  have hgen : ∀ (l : List PairEvent) (idx : List (String × List PairEvent)),
      (∀ e ∈ l, e ∈ events) → indexOk events idx →
      indexOk events
        (l.foldl
          (fun idx2 e => (e.blocking_keys.getD []).foldl
            (fun idx3 k => indexAdd idx3 k e) idx2)
          idx) := by
    intro l
    induction l with
    | nil => intro idx _ h; exact h
    | cons e es ih =>
      intro idx hl h
      simp only [List.foldl_cons]
      exact ih _ (fun x hx => hl x (List.mem_cons_of_mem _ hx))
        (foldKeys_ok (hl e (List.mem_cons_self _ _)) _ idx (fun k hk => hk) h)
  exact hgen events [] (fun e he => he) (by intro kb hkb; cases hkb)

theorem orderedPairs_mem {l : List PairEvent} {pq : PairEvent × PairEvent}
    (h : pq ∈ orderedPairs l) : pq.1 ∈ l ∧ pq.2 ∈ l := by
  induction l with
  | nil => cases h
  | cons x xs ih =>
    simp only [orderedPairs] at h
    rcases List.mem_append.mp h with h1 | h1
    · rcases List.mem_map.mp h1 with ⟨y, hy, heq⟩
      subst heq
      exact ⟨List.mem_cons_self _ _, List.mem_cons_of_mem _ hy⟩
    · rcases ih h1 with ⟨ha, hb⟩
      exact ⟨List.mem_cons_of_mem _ ha, List.mem_cons_of_mem _ hb⟩

theorem mem_pairAdd {s : List (String × String)} {p q : String × String} :
    q ∈ pairAdd s p ↔ q = p ∨ q ∈ s := by
  unfold pairAdd
  split_ifs with h
  · constructor
    · exact Or.inr
    · rintro (rfl | hq)
      · exact h
      · exact hq
  · simp [or_comm]

theorem pairAdd_nodup {s : List (String × String)} {p : String × String}
    (h : s.Nodup) : (pairAdd s p).Nodup := by
  unfold pairAdd
  split_ifs with hmem
  · exact h
  · simpa [List.nodup_append] using ⟨h, hmem⟩

theorem collectPairs_inv (events : List PairEvent) :
    (∀ p ∈ collectPairs events, emittedFrom events p) ∧ (collectPairs events).Nodup := by
  have hidx := buildBlockingIndex_ok events
  have hblock : ∀ (l : List (PairEvent × PairEvent)) (seen : List (String × String)),
      (∀ pq ∈ l, pq.1 ∈ events ∧ pq.2 ∈ events ∧
        ∃ k, k ∈ pq.1.blocking_keys.getD [] ∧ k ∈ pq.2.blocking_keys.getD []) →
      (∀ p ∈ seen, emittedFrom events p) → seen.Nodup →
      (∀ p ∈ l.foldl
          (fun seen2 pq =>
            if pq.1.source_code = pq.2.source_code then seen2
            else pairAdd seen2 (sortPair pq.1.id pq.2.id))
          seen, emittedFrom events p) ∧
      (l.foldl
          (fun seen2 pq =>
            if pq.1.source_code = pq.2.source_code then seen2
            else pairAdd seen2 (sortPair pq.1.id pq.2.id))
          seen).Nodup := by
    intro l
    induction l with
    | nil => intro seen _ hg hn; exact ⟨hg, hn⟩
    | cons pq rest ih =>
      intro seen hl hg hn
      simp only [List.foldl_cons]
      by_cases hsrc : pq.1.source_code = pq.2.source_code
      · rw [if_pos hsrc]
        exact ih _ (fun x hx => hl x (List.mem_cons_of_mem _ hx)) hg hn
      · rw [if_neg hsrc]
        rcases hl pq (List.mem_cons_self _ _) with ⟨h1, h2, hk⟩
        refine ih _ (fun x hx => hl x (List.mem_cons_of_mem _ hx)) ?_ (pairAdd_nodup hn)
        intro p hp
        rcases mem_pairAdd.mp hp with rfl | hp'
        · exact ⟨pq.1, h1, pq.2, h2, hsrc, hk, rfl⟩
        · exact hg p hp'
  have houter : ∀ (idxl : List (String × List PairEvent)) (seen : List (String × String)),
      (∀ kb ∈ idxl, ∀ e ∈ kb.2, e ∈ events ∧ kb.1 ∈ e.blocking_keys.getD []) →
      (∀ p ∈ seen, emittedFrom events p) → seen.Nodup →
      (∀ p ∈ idxl.foldl
          (fun seen kb =>
            (orderedPairs kb.2).foldl
              (fun seen2 pq =>
                if pq.1.source_code = pq.2.source_code then seen2
                else pairAdd seen2 (sortPair pq.1.id pq.2.id))
              seen)
          seen, emittedFrom events p) ∧
      (idxl.foldl
          (fun seen kb =>
            (orderedPairs kb.2).foldl
              (fun seen2 pq =>
                if pq.1.source_code = pq.2.source_code then seen2
                else pairAdd seen2 (sortPair pq.1.id pq.2.id))
              seen)
          seen).Nodup := by
    intro idxl
    induction idxl with
    | nil => intro seen _ hg hn; exact ⟨hg, hn⟩
    | cons kb rest ih =>
      intro seen hok hg hn
      simp only [List.foldl_cons]
      have hstep := hblock (orderedPairs kb.2) seen
        (fun pq hpq => by
          rcases orderedPairs_mem hpq with ⟨ha, hb⟩
          rcases hok kb (List.mem_cons_self _ _) pq.1 ha with ⟨hae, hak⟩
          rcases hok kb (List.mem_cons_self _ _) pq.2 hb with ⟨hbe, hbk⟩
          exact ⟨hae, hbe, kb.1, hak, hbk⟩)
        hg hn
      exact ih _ (fun kb' hkb' => hok kb' (List.mem_cons_of_mem _ hkb')) hstep.1 hstep.2
  unfold collectPairs
  exact houter (buildBlockingIndex events) []
    (fun kb hkb e he => hidx kb hkb e he)
    (by intro p hp; cases hp) List.nodup_nil

theorem insertSortedPair_perm (x : String × String) (l : List (String × String)) :
    (insertSortedPair x l).Perm (x :: l) := by
  induction l with
  | nil => exact List.Perm.refl _
  | cons y ys ih =>
    unfold insertSortedPair
    split_ifs
    · exact List.Perm.refl _
    · exact (List.Perm.cons y ih).trans (List.Perm.swap x y ys)

theorem sortPairs_perm (l : List (String × String)) : (sortPairs l).Perm l := by
  induction l with
  | nil => exact List.Perm.refl _
  | cons x xs ih =>
    exact (insertSortedPair_perm x (sortPairs xs)).trans (List.Perm.cons x ih)

theorem charListLt_irrefl (a : List Char) : charListLt a a = false := by
  induction a with
  | nil => rfl
  | cons x xs ih => simp [charListLt, ih]

theorem pyStrLt_irrefl (a : String) : pyStrLt a a = false :=
  charListLt_irrefl a.data

theorem sortPair_cases (a b : String) :
    sortPair a b = (a, b) ∨ sortPair a b = (b, a) := by
  unfold sortPair
  split_ifs <;> simp

theorem sortPair_lt {a b : String} (h : a ≠ b) :
    pyStrLt (sortPair a b).1 (sortPair a b).2 = true := by
  unfold sortPair
  rcases pyStrLt_trichotomy a b with hab | hab | hab
  · rw [if_neg (by rw [pyStrLt_asymm a b hab]; simp)]
    exact hab
  · exact absurd hab h
  · rw [if_pos hab]
    exact hab

theorem sortPair_eq_cases {a b c d : String} (h : sortPair a b = sortPair c d) :
    (a = c ∧ b = d) ∨ (a = d ∧ b = c) := by
  rcases sortPair_cases a b with h1 | h1 <;> rcases sortPair_cases c d with h2 | h2 <;>
    rw [h1, h2] at h
  · exact Or.inl ⟨congrArg Prod.fst h, congrArg Prod.snd h⟩
  · exact Or.inr ⟨congrArg Prod.fst h, congrArg Prod.snd h⟩
  · exact Or.inr ⟨congrArg Prod.snd h, congrArg Prod.fst h⟩
  · exact Or.inl ⟨congrArg Prod.snd h, congrArg Prod.fst h⟩

/-- C8 counterexample: for an input list containing two records that share a
blocking key and a source-crossing but carry the same id, the generator emits
the pair `("x", "x")`, which is not strictly ordered (`id_a < id_b` fails). -/
theorem candidate_pairs_duplicate_id_breaks_ordering :
    (generate_candidate_pairs
      [{ id := "x", source_code := "s1", blocking_keys := some ["k"] },
       { id := "x", source_code := "s2", blocking_keys := some ["k"] }]).1 =
      [("x", "x")] ∧
    pyStrLt "x" "x" = false := by
  exact ⟨rfl, rfl⟩

/-- C8 amended: provided the input records carry pairwise distinct ids, every
emitted pair is strictly ordered (`id_a < id_b`), stems from two input
records of different sources sharing at least one blocking key, appears only
once, and conversely two records from the same source, or sharing no
blocking key, are never emitted as a pair. -/
theorem candidate_pairs_soundness_amended (events : List PairEvent)
    (hids : (events.map (fun e => e.id)).Nodup) :
    (∀ p ∈ (generate_candidate_pairs events).1,
      pyStrLt p.1 p.2 = true ∧ emittedFrom events p) ∧
    ((generate_candidate_pairs events).1).Nodup ∧
    (∀ ea, ea ∈ events → ∀ eb, eb ∈ events →
      (ea.source_code = eb.source_code ∨
        ¬ ∃ k, k ∈ ea.blocking_keys.getD [] ∧ k ∈ eb.blocking_keys.getD []) →
      sortPair ea.id eb.id ∉ (generate_candidate_pairs events).1) := by
  have hinj : ∀ x ∈ events, ∀ y ∈ events, x.id = y.id → x = y :=
    fun _ hx _ hy h => List.inj_on_of_nodup_map hids hx hy h
  have hinv := collectPairs_inv events
  have hperm : ((generate_candidate_pairs events).1).Perm (collectPairs events) :=
    sortPairs_perm (collectPairs events)
  have hmem : ∀ p, p ∈ (generate_candidate_pairs events).1 ↔ p ∈ collectPairs events :=
    fun p => hperm.mem_iff
  have hgood : ∀ p ∈ (generate_candidate_pairs events).1,
      pyStrLt p.1 p.2 = true ∧ emittedFrom events p := by
    intro p hp
    have hem := hinv.1 p ((hmem p).mp hp)
    refine ⟨?_, hem⟩
    rcases hem with ⟨ea, hea, eb, heb, hsrc, _, hpq⟩
    have hne : ea.id ≠ eb.id := by
      intro hid
      exact hsrc (by rw [hinj ea hea eb heb hid])
    rw [hpq]
    exact sortPair_lt hne
  refine ⟨hgood, hperm.nodup_iff.mpr hinv.2, ?_⟩
  intro ea hea eb heb hbadpair hp
  rcases hgood _ hp with ⟨_, ⟨ea', hea', eb', heb', hsrc', hk', hpq'⟩⟩
  rcases sortPair_eq_cases hpq' with ⟨h1, h2⟩ | ⟨h1, h2⟩
  · have hae : ea = ea' := hinj ea hea ea' hea' h1
    have hbe : eb = eb' := hinj eb heb eb' heb' h2
    subst hae
    subst hbe
    rcases hbadpair with hs | hnk
    · exact hsrc' hs
    · exact hnk hk'
  · have hae : ea = eb' := hinj ea hea eb' heb' h1
    have hbe : eb = ea' := hinj eb heb ea' hea' h2
    subst hae
    subst hbe
    rcases hbadpair with hs | hnk
    · exact hsrc' hs.symm
    · rcases hk' with ⟨k, hk1, hk2⟩
      exact hnk ⟨k, hk2, hk1⟩

/-- C8 witness: the amended soundness theorem applied to two concrete
same-source records sharing a blocking key, whose pair is therefore never
emitted. -/
theorem candidate_pairs_soundness_amended_witness :
    sortPair "a" "b" ∉ (generate_candidate_pairs
      [{ id := "a", source_code := "s1", blocking_keys := some ["k"] },
       { id := "b", source_code := "s1", blocking_keys := some ["k"] }]).1 :=
  (candidate_pairs_soundness_amended
    [{ id := "a", source_code := "s1", blocking_keys := some ["k"] },
     { id := "b", source_code := "s1", blocking_keys := some ["k"] }]
    (by decide)).2.2
    { id := "a", source_code := "s1", blocking_keys := some ["k"] } (by decide)
    { id := "b", source_code := "s1", blocking_keys := some ["k"] } (by decide)
    (Or.inl rfl)

theorem pyStr?_of_ne_empty {v : Option String} (h : v ≠ some "") : pyStr? v = v := by
  cases v with
  | none => rfl
  | some s =>
    have hs : s ≠ "" := fun hc => h (by rw [hc])
    simp [pyStr?, hs]

theorem select_longest_single (r : SourceRecord) (getF : SourceRecord → Option String) :
    _select_longest [r] getF = (pyStr? (getF r), r.id.getD "unknown") := by
  unfold _select_longest firstId
  cases h : pyStr? (getF r) with
  | none => simp [h]
  | some s =>
    simp only [List.foldl_cons, List.foldl_nil, List.head?_cons, Option.map_some',
      Option.getD_some, h]
    rw [if_pos (by omega : (-1 : ℤ) < (s.length : ℤ))]

theorem select_longest_non_generic_single (r : SourceRecord)
    (getF : SourceRecord → Option String) (n : ℕ) :
    _select_longest_non_generic [r] getF n = ((pyStr? (getF r)).getD "", r.id.getD "unknown") := by
  unfold _select_longest_non_generic candidatesOf firstId
  cases h : pyStr? (getF r) with
  | none => simp [h]
  | some s =>
    simp only [List.filterMap_cons, List.filterMap_nil, h, Option.map_some']
    by_cases hn : n ≤ s.length
    · simp [List.filter, hn]
    · simp [List.filter, hn]

theorem select_most_frequent_single (r : SourceRecord)
    (getF : SourceRecord → Option String) :
    _select_most_frequent [r] getF = (pyStr? (getF r), r.id.getD "unknown") := by
  unfold _select_most_frequent candidatesOf firstId
  cases h : pyStr? (getF r) with
  | none => simp [h]
  | some s => simp [h, setAdd, List.find?]

theorem select_best_geo_single_all {r : SourceRecord} {la lo co : ℚ}
    (hla : r.geo_latitude = some la) (hlo : r.geo_longitude = some lo)
    (hco : r.geo_confidence = some co) (h : (-1 : ℚ) < co) :
    _select_best_geo [r] = ((some la, some lo, some co), r.id.getD "unknown") := by
  unfold _select_best_geo firstId
  simp only [List.foldl_cons, List.foldl_nil, hla, hlo, hco, List.head?_cons,
    Option.map_some', Option.getD_some]
  rw [if_pos h]

theorem select_best_geo_single_none {r : SourceRecord}
    (hla : r.geo_latitude = none) (hlo : r.geo_longitude = none)
    (hco : r.geo_confidence = none) :
    _select_best_geo [r] = ((none, none, none), r.id.getD "unknown") := by
  unfold _select_best_geo firstId
  simp [hla, hlo, hco]

theorem dedupFold_of_nodup :
    ∀ (ds res : List DateEntry), (((res ++ ds).map dateKey).Nodup) →
      ds.foldl (fun r d => if r.any (fun d0 => dateKey d0 = dateKey d) then r else r ++ [d])
        res = res ++ ds
  | [], res, _ => by simp
  | d :: ds', res, h => by
    have hnotin : dateKey d ∉ res.map dateKey := by
      intro hmem
      have hdisj := List.disjoint_of_nodup_append (by simpa using h)
      exact hdisj hmem (by simp)
    have hany : res.any (fun d0 => dateKey d0 = dateKey d) = false := by
      rw [List.any_eq_false]
      intro d0 hd0 hc
      exact hnotin (List.mem_map.mpr ⟨d0, hd0, by simpa using hc⟩)
    simp only [List.foldl_cons, hany, Bool.false_eq_true, if_false]
    have hkey : ((res ++ [d]) ++ ds').map dateKey = (res ++ d :: ds').map dateKey := by
      simp
    have := dedupFold_of_nodup ds' (res ++ [d]) (by rw [hkey]; exact h)
    rw [this]
    simp

theorem union_dates_single {r : SourceRecord} {ds : List DateEntry}
    (h : r.dates = some ds) (hnd : (ds.map dateKey).Nodup) :
    _union_dates [r] = ds := by
  unfold _union_dates
  simp only [List.foldl_cons, List.foldl_nil, h]
  simpa using dedupFold_of_nodup ds [] (by simpa using hnd)

theorem setAddFold_of_nodup :
    ∀ (cs res : List String), ((res ++ cs).Nodup) → cs.foldl setAdd res = res ++ cs
  | [], res, _ => by simp
  | c :: cs', res, h => by
    have hnotin : c ∉ res := by
      intro hmem
      have hdisj := List.disjoint_of_nodup_append h
      exact hdisj hmem (by simp)
    simp only [List.foldl_cons, setAdd, hnotin, if_false]
    have := setAddFold_of_nodup cs' (res ++ [c]) (by simpa using h)
    rw [this]
    simp

theorem union_lists_single {r : SourceRecord} {getF : SourceRecord → Option (List String)}
    {cs : List String} (h : getF r = some cs) (hnd : cs.Nodup) :
    _select_union_lists [r] getF = (cs, "union_all_sources") := by
  unfold _select_union_lists
  simp only [List.foldl_cons, List.foldl_nil, h]
  rw [show (cs.foldl setAdd [] = cs) from by simpa using setAddFold_of_nodup cs [] (by simpa using hnd)]

theorem anyTrue_single {r : SourceRecord} {getF : SourceRecord → Option Bool} {b : Bool}
    (h : getF r = some b) :
    anyTrueField [r] getF = (b, r.id.getD "unknown") := by
  unfold anyTrueField firstId
  cases b with
  | false => simp [h, List.find?]
  | true => simp [h, List.find?]

/-- C9 counterexample: synthesizing the single-record cluster of a record
whose `short_description` is the empty string yields a canonical whose
`short_description` is `None`, not the record's value verbatim (the
`longest` strategy only considers truthy values). -/
theorem synthesize_single_empty_field_not_verbatim :
    (synthesize_canonical [{ id := some "e1", short_description := some "" }]).toOption.map
      (fun c => c.short_description) = some none ∧
    SourceRecord.short_description { id := some "e1", short_description := some "" } =
      some "" := by
  exact ⟨rfl, rfl⟩

/-- C9 amended: for a single well-formed source record (id and title present;
optional text fields absent or non-empty; geo coordinates and confidence all
present with a genuine confidence or all absent; date and category lists
present and duplicate-free; boolean facets present), `synthesize_canonical`
on the one-record cluster reproduces the record's fields verbatim, with every
provenance entry pointing at the record's id or the union sentinel. -/
theorem synthesize_single_record_amended (r : SourceRecord) (i t : String)
    (hid : r.id = some i)
    (ht : r.title = some t)
    (hsd : r.short_description ≠ some "")
    (hdesc : r.description ≠ some "")
    (hln : r.location_name ≠ some "")
    (hld : r.location_district ≠ some "")
    (hls : r.location_street ≠ some "")
    (hlz : r.location_zipcode ≠ some "")
    (hcity : r.location_city ≠ some "")
    (hgeo : (∃ la lo co, r.geo_latitude = some la ∧ r.geo_longitude = some lo ∧
        r.geo_confidence = some co ∧ (-1 : ℚ) < co) ∨
      (r.geo_latitude = none ∧ r.geo_longitude = none ∧ r.geo_confidence = none))
    (hdates : ∃ ds, r.dates = some ds ∧ (ds.map dateKey).Nodup)
    (hcats : ∃ cs, r.categories = some cs ∧ cs.Nodup)
    (hfam : r.is_family_event.isSome)
    (hchild : r.is_child_focused.isSome)
    (hadm : r.admission_free.isSome) :
    ∃ c, synthesize_canonical [r] = .ok c ∧
      c.title = t ∧
      c.short_description = r.short_description ∧
      c.description = r.description ∧
      c.location_name = r.location_name ∧
      c.location_district = r.location_district ∧
      c.location_street = r.location_street ∧
      c.location_zipcode = r.location_zipcode ∧
      c.location_city = r.location_city ∧
      c.geo_latitude = r.geo_latitude ∧
      c.geo_longitude = r.geo_longitude ∧
      c.geo_confidence = r.geo_confidence ∧
      c.dates = r.dates.getD [] ∧
      c.categories = r.categories.getD [] ∧
      c.is_family_event = r.is_family_event.getD false ∧
      c.is_child_focused = r.is_child_focused.getD false ∧
      c.admission_free = r.admission_free.getD false ∧
      c.field_provenance =
        [("title", i), ("short_description", i), ("description", i),
         ("highlights", "union_all_sources"),
         ("location_name", i), ("location_district", i), ("location_street", i),
         ("location_zipcode", i), ("location_city", i), ("geo", i),
         ("dates", "union_all_sources"), ("categories", "union_all_sources"),
         ("is_family_event", i), ("is_child_focused", i), ("admission_free", i)] ∧
      c.source_count = 1 := by
  obtain ⟨ds, hds, hnds⟩ := hdates
  obtain ⟨cs, hcs, hncs⟩ := hcats
  obtain ⟨bf, hbf⟩ := Option.isSome_iff_exists.mp hfam
  obtain ⟨bc, hbc⟩ := Option.isSome_iff_exists.mp hchild
  obtain ⟨ba, hba⟩ := Option.isSome_iff_exists.mp hadm
  have hiu : r.id.getD "unknown" = i := by rw [hid]; rfl
  have hgeoeq : _select_best_geo [r] =
      ((r.geo_latitude, r.geo_longitude, r.geo_confidence), r.id.getD "unknown") := by
    rcases hgeo with ⟨la, lo, co, h1, h2, h3, h4⟩ | ⟨h1, h2, h3⟩
    · rw [select_best_geo_single_all h1 h2 h3 h4, h1, h2, h3]
    · rw [select_best_geo_single_none h1 h2 h3, h1, h2, h3]
  unfold synthesize_canonical
  rw [if_neg (by simp : ¬ ([r] = []))]
  refine ⟨_, rfl, ?_, ?_, ?_, ?_, ?_, ?_, ?_, ?_, ?_, ?_, ?_, ?_, ?_, ?_, ?_, ?_, ?_, ?_⟩
  · simp only [select_longest_non_generic_single, ht]
    cases htv : t == "" with
    | true => simp [pyStr?, (by simpa using htv : t = "")]
    | false => simp [pyStr?, (by simpa using htv : ¬ t = "")]
  · simp only [select_longest_single, pyStr?_of_ne_empty hsd]
  · simp only [select_longest_single, pyStr?_of_ne_empty hdesc]
  · simp only [_select_most_complete, select_longest_single, pyStr?_of_ne_empty hln]
  · simp only [_select_most_complete, select_longest_single, pyStr?_of_ne_empty hld]
  · simp only [_select_most_complete, select_longest_single, pyStr?_of_ne_empty hls]
  · simp only [_select_most_complete, select_longest_single, pyStr?_of_ne_empty hlz]
  · simp only [select_most_frequent_single, pyStr?_of_ne_empty hcity]
  · rw [hgeoeq]
  · rw [hgeoeq]
  · rw [hgeoeq]
  · rw [union_dates_single hds hnds, hds]; rfl
  · rw [union_lists_single hcs hncs, hcs]; rfl
  · rw [anyTrue_single hbf, hbf]; rfl
  · rw [anyTrue_single hbc, hbc]; rfl
  · rw [anyTrue_single hba, hba]; rfl
  · simp only [select_longest_non_generic_single, select_longest_single,
      select_most_frequent_single, _select_most_complete, _select_union_lists,
      select_best_geo_single_all, hgeoeq, anyTrue_single hbf, anyTrue_single hbc,
      anyTrue_single hba, hiu]
  · rfl

/-- C9 witness: the amended synthesis theorem applied to a concrete
well-formed record. -/
theorem synthesize_single_record_amended_witness :
    (synthesize_canonical [sampleRecord]).toOption.map
        (fun c => (c.title, c.location_city, provGet c.field_provenance "geo" "unknown")) =
      some ("Long Event Title", some "Freiburg", "w1") := by
  obtain ⟨c, hc, hT, hSD, hD, hLN, hLD, hLS, hLZ, hCity, hLa, hLo, hCo, hDates, hCats,
      hF, hC, hA, hProv, hCount⟩ :=
    synthesize_single_record_amended sampleRecord "w1" "Long Event Title"
      rfl rfl (by decide) (by decide) (by decide) (by decide)
      (by decide) (by decide) (by decide)
      (Or.inl ⟨48, 8, 1, rfl, rfl, rfl, by norm_num⟩)
      ⟨[{ date := some "2026-03-01" }], rfl, by decide⟩
      ⟨["music"], rfl, by decide⟩ rfl rfl rfl
  rw [hc]
  simp only [Except.toOption, Option.map_some']
  rw [hT, hCity, hProv]
  rfl

theorem length_pos_of_ne_empty {s : String} (h : s ≠ "") : 0 < s.length := by
  cases s with
  | mk data =>
    cases data with
    | nil => exact absurd rfl h
    | cons c cs => simp [String.length]

theorem foldMax_mem :
    ∀ (cs : List (String × String)) (c : String × String),
      cs.foldl (fun best x => if best.1.length < x.1.length then x else best) c ∈ c :: cs
  | [], _ => List.mem_cons_self _ _
  | x :: xs, c => by
    simp only [List.foldl_cons]
    by_cases h : c.1.length < x.1.length
    · rw [if_pos h]
      rcases List.mem_cons.mp (foldMax_mem xs x) with h1 | h1
      · rw [h1]; exact List.mem_cons_of_mem _ (List.mem_cons_self _ _)
      · exact List.mem_cons_of_mem _ (List.mem_cons_of_mem _ h1)
    · rw [if_neg h]
      rcases List.mem_cons.mp (foldMax_mem xs c) with h1 | h1
      · rw [h1]; exact List.mem_cons_self _ _
      · exact List.mem_cons_of_mem _ (List.mem_cons_of_mem _ h1)

theorem candidatesOf_map_fst (events : List SourceRecord)
    (getF : SourceRecord → Option String) :
    (candidatesOf events getF).map Prod.fst = candidateVals events getF := by
  unfold candidatesOf candidateVals
  rw [List.map_filterMap]
  apply List.filterMap_congr
  intro e _
  cases pyStr? (getF e) <;> rfl

theorem select_longest_non_generic_val (events : List SourceRecord)
    (getF : SourceRecord → Option String) (n : ℕ) :
    (_select_longest_non_generic events getF n).1 = "" ∨
    (_select_longest_non_generic events getF n).1 ∈ candidateVals events getF := by
  unfold _select_longest_non_generic
  simp only
  split_ifs with hlong
  · cases hp : (candidatesOf events getF).filter (fun c => n ≤ c.1.length) with
    | nil => exact absurd hp hlong
    | cons c cs =>
      right
      have hmem := foldMax_mem cs c
      rw [← hp] at hmem
      have hall : (cs.foldl (fun best x => if best.1.length < x.1.length then x else best) c)
          ∈ candidatesOf events getF := List.mem_of_mem_filter hmem
      rw [← candidatesOf_map_fst]
      exact List.mem_map_of_mem Prod.fst hall
  · cases hp : candidatesOf events getF with
    | nil => left; rfl
    | cons c cs =>
      right
      have hmem := foldMax_mem cs c
      rw [← hp] at hmem
      rw [← candidatesOf_map_fst]
      exact List.mem_map_of_mem Prod.fst hmem

theorem foldLongest_cases (getF : SourceRecord → Option String) :
    ∀ (l : List SourceRecord) (acc : Option String × ℤ × String),
      (l.foldl
        (fun acc e =>
          match pyStr? (getF e) with
          | some s => if acc.2.1 < (s.length : ℤ) then
              (some s, (s.length : ℤ), e.id.getD "unknown")
            else acc
          | none => acc)
        acc).1 = acc.1 ∨
      ∃ e, e ∈ l ∧
        (l.foldl
          (fun acc e =>
            match pyStr? (getF e) with
            | some s => if acc.2.1 < (s.length : ℤ) then
                (some s, (s.length : ℤ), e.id.getD "unknown")
              else acc
            | none => acc)
          acc).1 = pyStr? (getF e)
  | [], _ => Or.inl rfl
  | e :: es, acc => by
    simp only [List.foldl_cons]
    rcases foldLongest_cases getF es
        (match pyStr? (getF e) with
         | some s => if acc.2.1 < (s.length : ℤ) then
             (some s, (s.length : ℤ), e.id.getD "unknown")
           else acc
         | none => acc) with h | ⟨e', he', h⟩
    · rw [h]
      cases hv : pyStr? (getF e) with
      | none => exact Or.inl rfl
      | some s =>
        by_cases hc : acc.2.1 < (s.length : ℤ)
        · refine Or.inr ⟨e, List.mem_cons_self _ _, ?_⟩
          simp [hv, hc]
        · simp only [hv]
          rw [if_neg hc]
          exact Or.inl rfl
    · exact Or.inr ⟨e', List.mem_cons_of_mem _ he', h⟩

theorem select_longest_val (events : List SourceRecord)
    (getF : SourceRecord → Option String) :
    (_select_longest events getF).1 = none ∨
    ∃ s, (_select_longest events getF).1 = some s ∧ s ∈ candidateVals events getF := by
  unfold _select_longest
  rcases foldLongest_cases getF events (none, -1, firstId events) with h | ⟨e, he, h⟩
  · exact Or.inl h
  · cases hv : pyStr? (getF e) with
    | none => left; rw [h, hv]
    | some s =>
      right
      refine ⟨s, by rw [h, hv], ?_⟩
      exact List.mem_filterMap.mpr ⟨e, he, hv⟩

theorem provGet_provSet_same :
    ∀ (p : List (String × String)) (k v dflt : String),
      provGet (provSet p k v) k dflt = v
  | [], k, v, dflt => by simp [provSet, provGet]
  | q :: qs, k, v, dflt => by
    by_cases h : q.1 = k
    · simp [provSet, provGet, h]
    · simp only [provSet, provGet, h, if_false]
      exact provGet_provSet_same qs k v dflt

theorem provGet_provSet_ne :
    ∀ (p : List (String × String)) {k k' : String} (v dflt : String), k ≠ k' →
      provGet (provSet p k' v) k dflt = provGet p k dflt
  | [], k, k', v, dflt, h => by
    have hne : ¬ (k' = k) := fun hc => h hc.symm
    simp [provSet, provGet, hne]
  | q :: qs, k, k', v, dflt, h => by
    by_cases hq : q.1 = k'
    · have hne : ¬ (k' = k) := fun hc => h hc.symm
      have hqk : ¬ q.1 = k := by rw [hq]; exact hne
      simp [provSet, provGet, hq, hqk, hne]
    · simp only [provSet, provGet, hq, if_false]
      by_cases hqk : q.1 = k
      · simp [hqk]
      · simp only [hqk, if_false]
        exact provGet_provSet_ne qs v dflt h

theorem downgradeTitle_sd (e : ExistingCanonical) (x : CanonicalEvent) :
    (downgradeTitle e x).short_description = x.short_description := by
  unfold downgradeTitle; split_ifs <;> rfl

theorem downgradeTitle_desc (e : ExistingCanonical) (x : CanonicalEvent) :
    (downgradeTitle e x).description = x.description := by
  unfold downgradeTitle; split_ifs <;> rfl

theorem downgradeSD_title (e : ExistingCanonical) (x : CanonicalEvent) :
    (downgradeShortDescription e x).title = x.title := by
  unfold downgradeShortDescription; split_ifs <;> rfl

theorem downgradeSD_desc (e : ExistingCanonical) (x : CanonicalEvent) :
    (downgradeShortDescription e x).description = x.description := by
  unfold downgradeShortDescription; split_ifs <;> rfl

theorem downgradeDesc_title (e : ExistingCanonical) (x : CanonicalEvent) :
    (downgradeDescription e x).title = x.title := by
  unfold downgradeDescription; split_ifs <;> rfl

theorem downgradeDesc_sd (e : ExistingCanonical) (x : CanonicalEvent) :
    (downgradeDescription e x).short_description = x.short_description := by
  unfold downgradeDescription; split_ifs <;> rfl

theorem downgradeSD_prov_title (e : ExistingCanonical) (x : CanonicalEvent) (dflt : String) :
    provGet (downgradeShortDescription e x).field_provenance "title" dflt =
      provGet x.field_provenance "title" dflt := by
  unfold downgradeShortDescription
  split_ifs
  · exact provGet_provSet_ne _ _ _ (by decide)
  · rfl

theorem downgradeDesc_prov_title (e : ExistingCanonical) (x : CanonicalEvent) (dflt : String) :
    provGet (downgradeDescription e x).field_provenance "title" dflt =
      provGet x.field_provenance "title" dflt := by
  unfold downgradeDescription
  split_ifs
  · exact provGet_provSet_ne _ _ _ (by decide)
  · rfl

theorem downgradeDesc_prov_sd (e : ExistingCanonical) (x : CanonicalEvent) (dflt : String) :
    provGet (downgradeDescription e x).field_provenance "short_description" dflt =
      provGet x.field_provenance "short_description" dflt := by
  unfold downgradeDescription
  split_ifs
  · exact provGet_provSet_ne _ _ _ (by decide)
  · rfl

theorem synthesize_projections (sources : List SourceRecord) (h : sources ≠ []) :
    ∃ nc, synthesize_canonical sources = .ok nc ∧
      nc.title = (_select_longest_non_generic sources (fun e => e.title) 10).1 ∧
      nc.short_description = (_select_longest sources (fun e => e.short_description)).1 ∧
      nc.description = (_select_longest sources (fun e => e.description)).1 := by
  unfold synthesize_canonical
  rw [if_neg h]
  exact ⟨_, rfl, rfl, rfl, rfl⟩

/-- C7 counterexample: with an existing canonical whose title is the empty
string (so it is vacuously longer than each of the zero candidate titles) and
a source set contributing no title, `enrich_canonical` replaces the title
provenance with the first source's id instead of preserving the existing
provenance, while the version still increments. -/
theorem enrich_vacuous_title_provenance_not_preserved :
    candidateTitles [({ id := some "s1" } : SourceRecord)] = [] ∧
    provGet (ExistingCanonical.field_provenance
      { title := some "", field_provenance := [("title", "old-rec")], version := some 3 })
      "title" "unknown" = "old-rec" ∧
    (enrich_canonical
      { title := some "", field_provenance := [("title", "old-rec")], version := some 3 }
      [{ id := some "s1" }]).toOption.map
        (fun c => (provGet c.field_provenance "title" "unknown", c.version)) =
      some ("s1", some 4) := by
  exact ⟨rfl, rfl, rfl⟩

/-- C7 amended: for every existing canonical (with a version) and every
non-empty source set, if the existing title is non-empty and longer than
every candidate title of the sources, the enriched canonical keeps the
existing title and its provenance while the version increments; the same
holds for `short_description` and `description`.  (The non-emptiness of the
existing value is needed: with no candidates at all and an empty existing
value, the freshly synthesized provenance wins, and with an empty source
list `synthesize_canonical` raises.) -/
theorem enrich_downgrade_prevention_amended (existing : ExistingCanonical)
    (sources : List SourceRecord) (v : ℤ)
    (hne : sources ≠ [])
    (hv : existing.version = some v) :
    ∃ ec, enrich_canonical existing sources = .ok ec ∧
      ec.version = some (v + 1) ∧
      ((existing.title.getD "" ≠ "" ∧
        ∀ s ∈ candidateTitles sources, s.length < (existing.title.getD "").length) →
        ec.title = existing.title.getD "" ∧
        provGet ec.field_provenance "title" "unknown" =
          provGet existing.field_provenance "title" "unknown") ∧
      ((existing.short_description.getD "" ≠ "" ∧
        ∀ s ∈ candidateVals sources (fun e => e.short_description),
          s.length < (existing.short_description.getD "").length) →
        ec.short_description = existing.short_description ∧
        provGet ec.field_provenance "short_description" "unknown" =
          provGet existing.field_provenance "short_description" "unknown") ∧
      ((existing.description.getD "" ≠ "" ∧
        ∀ s ∈ candidateVals sources (fun e => e.description),
          s.length < (existing.description.getD "").length) →
        ec.description = existing.description ∧
        provGet ec.field_provenance "description" "unknown" =
          provGet existing.field_provenance "description" "unknown") := by
  obtain ⟨nc, hsyn, hT, hSD, hD⟩ := synthesize_projections sources hne
  refine ⟨_, by rw [enrich_canonical, hsyn], ?_, ?_, ?_, ?_⟩
  · simp only [hv]
    rfl
  · rintro ⟨hne', hall⟩
    have hlt : nc.title.length < pyLen existing.title := by
      rcases select_longest_non_generic_val sources (fun e => e.title) 10 with h | h
      · rw [hT, h]
        exact length_pos_of_ne_empty hne'
      · rw [hT]
        exact hall _ h
    have hstep : downgradeTitle existing nc =
        { nc with title := existing.title.getD ""
                  field_provenance := provSet nc.field_provenance "title"
                    (provGet existing.field_provenance "title" "unknown") } := by
      unfold downgradeTitle
      rw [if_pos hlt]
    constructor
    · show (downgradeDescription existing
        (downgradeShortDescription existing (downgradeTitle existing nc))).title = _
      rw [downgradeDesc_title, downgradeSD_title, hstep]
    · show provGet (downgradeDescription existing
        (downgradeShortDescription existing (downgradeTitle existing nc))).field_provenance
          "title" "unknown" = _
      rw [downgradeDesc_prov_title, downgradeSD_prov_title, hstep]
      exact provGet_provSet_same _ _ _ _
  · rintro ⟨hne', hall⟩
    have hsd1 : (downgradeTitle existing nc).short_description = nc.short_description :=
      downgradeTitle_sd existing nc
    have hlt : pyLen (downgradeTitle existing nc).short_description <
        pyLen existing.short_description := by
      rw [hsd1]
      rcases select_longest_val sources (fun e => e.short_description) with h | ⟨s, h, hmem⟩
      · rw [hSD] at *
        rw [h]
        exact length_pos_of_ne_empty hne'
      · rw [hSD] at *
        rw [h]
        exact hall _ hmem
    have hstep : downgradeShortDescription existing (downgradeTitle existing nc) =
        { downgradeTitle existing nc with
            short_description := existing.short_description
            field_provenance := provSet (downgradeTitle existing nc).field_provenance
              "short_description"
              (provGet existing.field_provenance "short_description" "unknown") } := by
      unfold downgradeShortDescription
      rw [if_pos hlt]
    constructor
    · show (downgradeDescription existing
        (downgradeShortDescription existing (downgradeTitle existing nc))).short_description = _
      rw [downgradeDesc_sd, hstep]
    · show provGet (downgradeDescription existing
        (downgradeShortDescription existing (downgradeTitle existing nc))).field_provenance
          "short_description" "unknown" = _
      rw [downgradeDesc_prov_sd, hstep]
      exact provGet_provSet_same _ _ _ _
  · rintro ⟨hne', hall⟩
    have hd1 : (downgradeShortDescription existing (downgradeTitle existing nc)).description =
        nc.description := by
      rw [downgradeSD_desc, downgradeTitle_desc]
    have hlt : pyLen (downgradeShortDescription existing
        (downgradeTitle existing nc)).description < pyLen existing.description := by
      rw [hd1]
      rcases select_longest_val sources (fun e => e.description) with h | ⟨s, h, hmem⟩
      · rw [hD] at *
        rw [h]
        exact length_pos_of_ne_empty hne'
      · rw [hD] at *
        rw [h]
        exact hall _ hmem
    have hstep : downgradeDescription existing
        (downgradeShortDescription existing (downgradeTitle existing nc)) =
        { downgradeShortDescription existing (downgradeTitle existing nc) with
            description := existing.description
            field_provenance := provSet
              (downgradeShortDescription existing (downgradeTitle existing nc)).field_provenance
              "description"
              (provGet existing.field_provenance "description" "unknown") } := by
      unfold downgradeDescription
      rw [if_pos hlt]
    constructor
    · show (downgradeDescription existing
        (downgradeShortDescription existing (downgradeTitle existing nc))).description = _
      rw [hstep]
    · show provGet (downgradeDescription existing
        (downgradeShortDescription existing (downgradeTitle existing nc))).field_provenance
          "description" "unknown" = _
      rw [hstep]
      exact provGet_provSet_same _ _ _ _

/-- C7 witness: the amended downgrade-prevention theorem applied to a
concrete existing canonical and source set. -/
theorem enrich_downgrade_prevention_amended_witness :
    (enrich_canonical sampleExisting sampleEnrichSources).toOption.map
      (fun c => (c.title, provGet c.field_provenance "title" "unknown", c.version)) =
      some ("A much longer existing title", "old", some 3) := by
  obtain ⟨ec, hec, hv', hTitle, _, _⟩ :=
    enrich_downgrade_prevention_amended sampleExisting sampleEnrichSources 2
      (by decide) rfl
  obtain ⟨h1, h2⟩ := hTitle ⟨by decide, by
    intro s hs
    have : s = "short" := by
      simpa [sampleEnrichSources, candidateTitles, candidateVals, pyStr?] using hs
    rw [this]
    decide⟩
  rw [hec]
  simp only [Except.toOption, Option.map_some']
  rw [h1, h2, hv']
  rfl

end EventDedup
